import Mathlib

/-!
Verification development for the log-analyzer repository.

Shallow embedding of the core pipeline:
  - `src/utils/dateTimeParser.ts`: timestamp pattern matching, JS date
    parsing (modelled over the string shapes the extractor produces,
    with an instant encoded as epoch milliseconds; local wall-clock
    times are encoded at offset zero), `isTimestampInRange`,
    `analyzeFileTimestamps`.
  - `src/components/LogAnalyzer.tsx`: `analyzeLogContent` (line split,
    classification keyword chain, per-file counters) and the
    `filteredFiles` three-stage collection filter.

JavaScript environment effects (`Date.now()`, `Math.random()`, the
current calendar year) are passed in as explicit parameters.
-/

namespace LogAnalyzer

/-! ## JS string primitives -/

/-- JS whitespace for `String.prototype.trim` (WhiteSpace and
LineTerminator code points). -/
def jsWhitespaceChar (c : Char) : Bool :=
  c = ' ' || c = '\t' || c = '\n' || c = '\r' ||
  c = Char.ofNat 11 || c = Char.ofNat 12 ||
  c = Char.ofNat 0xA0 || c = Char.ofNat 0xFEFF ||
  c = Char.ofNat 0x2028 || c = Char.ofNat 0x2029

/-- Model of JS `line.trim()`. -/
def jsTrim (s : String) : String :=
  String.mk (((s.data.dropWhile jsWhitespaceChar).reverse.dropWhile jsWhitespaceChar).reverse)

/-- Model of JS `String.prototype.toLowerCase` (ASCII range, which is
all the classifier keywords need). -/
def jsToLower (s : String) : String :=
  String.mk (s.data.map Char.toLower)

/-- Does `pat` occur at the head of `cs`? -/
def listStartsWith : List Char → List Char → Bool
  | [], _ => true
  | _ :: _, [] => false
  | p :: ps, c :: cs => p = c && listStartsWith ps cs

/-- Does `pat` occur anywhere in `cs`? -/
def listHasSub (pat : List Char) : List Char → Bool
  | [] => listStartsWith pat []
  | c :: cs => listStartsWith pat (c :: cs) || listHasSub pat (cs : List Char)

/-- Model of JS `s.includes(pat)`. -/
def jsIncludes (s pat : String) : Bool :=
  listHasSub pat.data s.data

/-- Model of JS `content.split('\n')`. -/
def splitNl : List Char → List (List Char)
  | [] => [[]]
  | c :: rest =>
    match splitNl rest with
    | [] => [[]]
    | l :: ls => if c = '\n' then [] :: l :: ls else (c :: l) :: ls

def jsSplitNewline (s : String) : List String :=
  (splitNl s.data).map String.mk

/-- Model of JS `str.replace(/[[]]/g, '')`: the character class `[[]`
matches only `[`, followed by a literal `]`, so the regex matches the
two-character literal `[]` and nothing else. -/
def removeEmptyBracketPairs : List Char → List Char
  | '[' :: ']' :: rest => removeEmptyBracketPairs rest
  | c :: rest => c :: removeEmptyBracketPairs rest
  | [] => []

def jsReplaceEmptyBrackets (s : String) : String :=
  String.mk (removeEmptyBracketPairs s.data)

/-! ## Scanner helpers shared by the regex models -/

def eatChar (c : Char) : List Char → Option (List Char)
  | [] => none
  | x :: xs => if x = c then some xs else none

/-- Consume exactly `n` ASCII digits. -/
def eatDigits : Nat → List Char → Option (List Char)
  | 0, cs => some cs
  | _ + 1, [] => none
  | n + 1, c :: cs => if c.isDigit then eatDigits n cs else none

/-- JS `\w` is `[A-Za-z0-9_]`. -/
def isWordChar (c : Char) : Bool :=
  c.isAlpha || c.isDigit || c = '_'

def eatWordChars : Nat → List Char → Option (List Char)
  | 0, cs => some cs
  | _ + 1, [] => none
  | n + 1, c :: cs => if isWordChar c then eatWordChars n cs else none

def digitsToNat (ds : List Char) : Nat :=
  ds.foldl (fun acc c => acc * 10 + (c.toNat - 48)) 0

/-- Consume exactly `n` digits and return their value. -/
def takeDigitChars : Nat → List Char → Option (List Char × List Char)
  | 0, cs => some ([], cs)
  | _ + 1, [] => none
  | n + 1, c :: cs =>
    if c.isDigit then
      match takeDigitChars n cs with
      | some (ds, rest) => some (c :: ds, rest)
      | none => none
    else none

def readNat (n : Nat) (cs : List Char) : Option (Nat × List Char) :=
  (takeDigitChars n cs).map (fun p => (digitsToNat p.1, p.2))

/-- A maximal nonempty run of digits and its value. -/
def readDigitRun (cs : List Char) : Option (Nat × List Char) :=
  let ds := cs.takeWhile Char.isDigit
  if ds.isEmpty then none else some (digitsToNat ds, cs.dropWhile Char.isDigit)

/-! ## Date arithmetic

A parsed JS `Date` is encoded as epoch milliseconds (`Int`).  Civil
dates convert through the standard days-from-civil algorithm; the year
is shifted by 400 so all intermediate divisions stay in `Nat`. -/

def isLeapYear (y : Nat) : Bool :=
  (y % 4 = 0 && y % 100 ≠ 0) || y % 400 = 0

def daysInMonth (y mo : Nat) : Nat :=
  if mo = 2 then (if isLeapYear y then 29 else 28)
  else if mo = 4 || mo = 6 || mo = 9 || mo = 11 then 30
  else 31

def validYMD (y mo d : Nat) : Bool :=
  1 ≤ mo && mo ≤ 12 && 1 ≤ d && d ≤ daysInMonth y mo

/-- Days since 0000-03-01 of the proleptic Gregorian calendar, for a
year already shifted up by 400 (so `y ≥ 400`). -/
def daysFromCivilShifted (y mo d : Nat) : Nat :=
  let y' := if mo ≤ 2 then y - 1 else y
  let era := y' / 400
  let yoe := y' % 400
  let mp := if mo > 2 then mo - 3 else mo + 9
  let doy := (153 * mp + 2) / 5 + d - 1
  let doe := yoe * 365 + yoe / 4 - yoe / 100 + doy
  era * 146097 + doe

/-- Days since the Unix epoch 1970-01-01. -/
def epochDays (y mo d : Nat) : Int :=
  (daysFromCivilShifted (y + 400) mo d : Int) - 146097 - 719468

/-- Epoch milliseconds of a civil date-time with a UTC offset in
minutes.  Local wall-clock times are encoded at offset zero. -/
def dateKeyMs (y mo d h mi s ms : Nat) (offsetMin : Int) : Int :=
  epochDays y mo d * 86400000 +
    ((h * 3600 + mi * 60 + s) * 1000 + ms : Nat) - offsetMin * 60000

/-! ## Sequencing combinators for the scanners

Plain sequential composition over `List Char → Option (List Char)`;
`pOpt`/`pAlt` model an optional regex group and an alternation.  (The
committed-choice `pAlt` agrees with regex backtracking for every
pattern below: whenever the longer alternative succeeds, the shorter
one is immediately contradicted by the following character.) -/

def pSeq : List (List Char → Option (List Char)) → List Char → Option (List Char)
  | [], cs => some cs
  | p :: ps, cs =>
    match p cs with
    | none => none
    | some r => pSeq ps r

def pAlt (p q : List Char → Option (List Char)) (cs : List Char) : Option (List Char) :=
  match p cs with
  | some r => some r
  | none => q cs

def pOpt (p : List Char → Option (List Char)) (cs : List Char) : Option (List Char) :=
  match p cs with
  | some r => some r
  | none => some cs

/-- `[T ]`, the ISO date/time separator. -/
def eatSep : List Char → Option (List Char)
  | c :: rest => if c = 'T' || c = ' ' then some rest else none
  | [] => none

/-- `[+-]`. -/
def eatSign : List Char → Option (List Char)
  | c :: rest => if c = '+' || c = '-' then some rest else none
  | [] => none

/-! ## Model of `new Date(string)`

The extractor only ever hands `new Date` three families of strings that
any JS engine parses: ISO-8601 (with `T` or space separator, optional
milliseconds, optional `Z`/offset), the legacy US form
`MM/DD/YYYY HH:MM:SS`, and the syslog form with the year appended,
`Mon D HH:MM:SS YYYY`.  Everything else (in particular a string still
carrying the Apache brackets) yields an invalid date, i.e. `none`. -/

def monthNames : List (List Char) :=
  ["Jan".data, "Feb".data, "Mar".data, "Apr".data, "May".data, "Jun".data,
   "Jul".data, "Aug".data, "Sep".data, "Oct".data, "Nov".data, "Dec".data]

/-- Read a three-letter month abbreviation, returning its 1-based
number. -/
def readMonthName : List Char → Option (Nat × List Char)
  | a :: b :: c :: rest =>
    (match (monthNames.indexOf? [a, b, c]) with
     | some i => some (i + 1, rest)
     | none => none)
  | _ => none

/-- `YYYY-MM-DD` with the two dashes, returning the field values. -/
def readYMDdash (cs : List Char) : Option (Nat × Nat × Nat × List Char) :=
  match readNat 4 cs with
  | none => none
  | some (y, r1) =>
    match eatChar '-' r1 with
    | none => none
    | some r2 =>
      match readNat 2 r2 with
      | none => none
      | some (mo, r3) =>
        match eatChar '-' r3 with
        | none => none
        | some r4 =>
          match readNat 2 r4 with
          | none => none
          | some (d, r5) => some (y, mo, d, r5)

/-- `HH:MM:SS`, returning the field values. -/
def readClockTriple (cs : List Char) : Option (Nat × Nat × Nat × List Char) :=
  match readNat 2 cs with
  | none => none
  | some (h, r1) =>
    match eatChar ':' r1 with
    | none => none
    | some r2 =>
      match readNat 2 r2 with
      | none => none
      | some (mi, r3) =>
        match eatChar ':' r3 with
        | none => none
        | some r4 =>
          match readNat 2 r4 with
          | none => none
          | some (s, r5) => some (h, mi, s, r5)

/-- Optional `.mmm` fraction; absent means zero milliseconds. -/
def readISOmsOpt (cs : List Char) : Nat × List Char :=
  match eatChar '.' cs with
  | none => (0, cs)
  | some r1 =>
    match readNat 3 r1 with
    | none => (0, cs)
    | some (ms, r2) => (ms, r2)

/-- Optional zone suffix: end of string and `Z` both mean offset zero
(local wall-clock times are modelled at offset zero), `±HH:MM` gives
the signed offset in minutes, anything else fails. -/
def readISOZoneOpt : List Char → Option (Int × List Char)
  | [] => some ((0 : Int), ([] : List Char))
  | 'Z' :: r => some ((0 : Int), r)
  | c :: r =>
    if c = '+' || c = '-' then
      match readNat 2 r with
      | none => none
      | some (oh, r2) =>
        match eatChar ':' r2 with
        | none => none
        | some r3 =>
          match readNat 2 r3 with
          | none => none
          | some (om, r4) =>
            some ((if c = '+' then (1 : Int) else -1) * (oh * 60 + om), r4)
    else none

def validClock (h mi s : Nat) : Bool :=
  h ≤ 23 && mi ≤ 59 && s ≤ 59

def parseISOChars (cs : List Char) : Option Int :=
  match readYMDdash cs with
  | none => none
  | some (y, mo, d, r1) =>
    match eatSep r1 with
    | none => none
    | some r2 =>
      match readClockTriple r2 with
      | none => none
      | some (h, mi, sec, r3) =>
        match readISOmsOpt r3 with
        | (ms, r4) =>
          match readISOZoneOpt r4 with
          | none => none
          | some (offsetMin, r5) =>
            if r5.isEmpty && validYMD y mo d && validClock h mi sec then
              some (dateKeyMs y mo d h mi sec ms offsetMin)
            else none

/-- `MM/DD/YYYY` with the two slashes. -/
def readUSDate (cs : List Char) : Option (Nat × Nat × Nat × List Char) :=
  match readNat 2 cs with
  | none => none
  | some (mo, r1) =>
    match eatChar '/' r1 with
    | none => none
    | some r2 =>
      match readNat 2 r2 with
      | none => none
      | some (d, r3) =>
        match eatChar '/' r3 with
        | none => none
        | some r4 =>
          match readNat 4 r4 with
          | none => none
          | some (y, r5) => some (mo, d, y, r5)

def parseUSChars (cs : List Char) : Option Int :=
  match readUSDate cs with
  | none => none
  | some (mo, d, y, r1) =>
    match eatChar ' ' r1 with
    | none => none
    | some r2 =>
      match readClockTriple r2 with
      | none => none
      | some (h, mi, sec, r3) =>
        if r3.isEmpty && validYMD y mo d && validClock h mi sec then
          some (dateKeyMs y mo d h mi sec 0 0)
        else none

/-- `Mon D` of the syslog form, returning month number and day. -/
def readSyslogHead (cs : List Char) : Option (Nat × Nat × List Char) :=
  match readMonthName cs with
  | none => none
  | some (mo, r1) =>
    match eatChar ' ' r1 with
    | none => none
    | some r2 =>
      match readDigitRun r2 with
      | none => none
      | some (d, r3) =>
        match eatChar ' ' r3 with
        | none => none
        | some r4 => some (mo, d, r4)

def parseSyslogYearChars (cs : List Char) : Option Int :=
  match readSyslogHead cs with
  | none => none
  | some (mo, d, r1) =>
    match readClockTriple r1 with
    | none => none
    | some (h, mi, sec, r2) =>
      match eatChar ' ' r2 with
      | none => none
      | some r3 =>
        match readDigitRun r3 with
        | none => none
        | some (y, r4) =>
          if r4.isEmpty && validYMD y mo d && validClock h mi sec then
            some (dateKeyMs y mo d h mi sec 0 0)
          else none

/-- Model of JS `new Date(str)` restricted to the shapes above. -/
def jsDateParse (s : String) : Option Int :=
  match parseISOChars s.data with
  | some v => some v
  | none =>
    match parseUSChars s.data with
    | some v => some v
    | none => parseSyslogYearChars s.data

/-! ## TIMESTAMP_PATTERNS

Each regex of `dateTimeParser.ts` is modelled as an anchored matcher
`List Char → Option (List Char)` returning the input minus the matched
prefix when the pattern matches at the current position.  `scanFirst`
then yields the leftmost match, i.e. `line.match(pattern)[0]`. -/

/-- `\d{4}-\d{2}-\d{2}[T ]\d{2}:\d{2}:\d{2}(?:\.\d{3})?(?:Z|[+-]\d{2}:\d{2})?` -/
def isoPatTail : List Char → Option (List Char) :=
  pSeq [eatDigits 4, eatChar '-', eatDigits 2, eatChar '-', eatDigits 2,
        eatSep, eatDigits 2, eatChar ':', eatDigits 2, eatChar ':', eatDigits 2,
        pOpt (pSeq [eatChar '.', eatDigits 3]),
        pOpt (pAlt (eatChar 'Z')
                   (pSeq [eatSign, eatDigits 2, eatChar ':', eatDigits 2]))]

/-- `\d{4}-\d{2}-\d{2} \d{2}:\d{2}:\d{2}` -/
def stdPatTail : List Char → Option (List Char) :=
  pSeq [eatDigits 4, eatChar '-', eatDigits 2, eatChar '-', eatDigits 2,
        eatChar ' ', eatDigits 2, eatChar ':', eatDigits 2, eatChar ':', eatDigits 2]

/-- `\d{4}-\d{2}-\d{2} \d{2}:\d{2}:\d{2}\.\d{3}` -/
def stdMsPatTail : List Char → Option (List Char) :=
  pSeq [stdPatTail, eatChar '.', eatDigits 3]

/-- `\d{2}\/\d{2}\/\d{4} \d{2}:\d{2}:\d{2}` -/
def usPatTail : List Char → Option (List Char) :=
  pSeq [eatDigits 2, eatChar '/', eatDigits 2, eatChar '/', eatDigits 4,
        eatChar ' ', eatDigits 2, eatChar ':', eatDigits 2, eatChar ':', eatDigits 2]

/-- The three-letter month alternation of the syslog pattern. -/
def eatMonthAbbrev : List Char → Option (List Char)
  | a :: b :: c :: rest =>
    if monthNames.any (fun m => m = [a, b, c]) then some rest else none
  | _ => none

/-- `(?:Jan|...|Dec) \d{1,2} \d{2}:\d{2}:\d{2}`; the greedy `\d{1,2}`
backtracks from two digits to one. -/
def syslogPatTail : List Char → Option (List Char) :=
  pSeq [eatMonthAbbrev, eatChar ' ',
        pAlt (pSeq [eatDigits 2, eatChar ' ']) (pSeq [eatDigits 1, eatChar ' ']),
        eatDigits 2, eatChar ':', eatDigits 2, eatChar ':', eatDigits 2]

/-- `\[(\d{2}\/\w{3}\/\d{4}:\d{2}:\d{2}:\d{2} [+-]\d{4})\]`; the match
returned by `String.match` is the full bracketed text. -/
def apachePatTail : List Char → Option (List Char) :=
  pSeq [eatChar '[', eatDigits 2, eatChar '/', eatWordChars 3, eatChar '/',
        eatDigits 4, eatChar ':', eatDigits 2, eatChar ':', eatDigits 2,
        eatChar ':', eatDigits 2, eatChar ' ', eatSign, eatDigits 4, eatChar ']']

/-- Leftmost match of an anchored matcher: the matched substring. -/
def scanFirst (m : List Char → Option (List Char)) : List Char → Option (List Char)
  | [] =>
    (match m [] with
     | some _ => some []
     | none => none)
  | c :: cs =>
    match m (c :: cs) with
    | some rest => some ((c :: cs).take ((c :: cs).length - rest.length))
    | none => scanFirst m cs

def TIMESTAMP_PATTERNS : List (List Char → Option (List Char)) :=
  [isoPatTail, stdPatTail, stdMsPatTail, usPatTail, syslogPatTail, apachePatTail]

/-! ## extractTimestampFromLine -/

structure ParsedTimestamp where
  original : String
  parsed : Option Int
  lineNumber : Nat
deriving DecidableEq, Repr

/-- The anchored test `timestampStr.match(/^\w{3} \d{1,2} \d{2}:/)`. -/
def syslogAnchorTest (s : String) : Bool :=
  (pSeq [eatWordChars 3, eatChar ' ',
         pAlt (pSeq [eatDigits 2, eatChar ' ']) (pSeq [eatDigits 1, eatChar ' ']),
         eatDigits 2, eatChar ':'] s.data).isSome

/-- The per-match branch logic of `extractTimestampFromLine`:
US/Apache strings (containing `/`), syslog strings (current year
appended), everything else straight to `new Date`. -/
def parseMatchedTimestamp (currentYear : Nat) (timestampStr : String) : Option Int :=
  if jsIncludes timestampStr "/" then
    if jsIncludes timestampStr "[" || jsIncludes timestampStr "+" then
      jsDateParse (jsReplaceEmptyBrackets timestampStr)
    else
      jsDateParse timestampStr
  else if syslogAnchorTest timestampStr then
    jsDateParse (timestampStr ++ " " ++ toString currentYear)
  else
    jsDateParse timestampStr

/-- The pattern loop: first pattern whose leftmost match parses to a
valid date wins; a match that fails to parse falls through to the next
pattern. -/
def tryPatternList (currentYear : Nat) (line : String) :
    List (List Char → Option (List Char)) → Option ParsedTimestamp
  | [] => none
  | p :: ps =>
    match scanFirst p line.data with
    | some matched =>
      let timestampStr := String.mk matched
      (match parseMatchedTimestamp currentYear timestampStr with
       | some d => some { original := timestampStr, parsed := some d, lineNumber := 0 }
       | none => tryPatternList currentYear line ps)
    | none => tryPatternList currentYear line ps

def extractTimestampFromLine (currentYear : Nat) (line : String) : Option ParsedTimestamp :=
  tryPatternList currentYear line TIMESTAMP_PATTERNS


/-! ## Data model -/

inductive Category where
  | error
  | warning
  | success
  | info
deriving DecidableEq, Repr

structure LogEntry where
  line : String
  lineNumber : Nat
  type : Category
  timestamp : Option Int
  originalTimestamp : Option String
deriving DecidableEq, Repr

structure FileTimestampMetadata where
  fileId : String
  fileName : String
  earliest : Option Int
  latest : Option Int
  totalTimestamps : Nat
deriving DecidableEq, Repr

structure LogFile where
  id : String
  name : String
  content : String
  entries : List LogEntry
  errors : Nat
  warnings : Nat
  success : Nat
  timestampMetadata : FileTimestampMetadata
deriving DecidableEq, Repr

inductive FilterChoice where
  | all
  | error
  | warning
  | success
deriving DecidableEq, Repr

/-! ## analyzeFileTimestamps -/

/-- One step of the mutable earliest/latest/total accumulator of
`analyzeFileTimestamps`. -/
def updAcc (acc : Option Int × Option Int × Nat) (d : Int) :
    Option Int × Option Int × Nat :=
  ((match acc.1 with
    | none => some d
    | some e0 => if d < e0 then some d else some e0),
   (match acc.2.1 with
    | none => some d
    | some l0 => if d > l0 then some d else some l0),
   acc.2.2 + 1)

/-- The `lines.forEach` loop of `analyzeFileTimestamps`: for each
non-blank line whose extraction yields a parsed date, bump the
accumulator. -/
def timestampFold (currentYear : Nat) :
    List String → Option Int × Option Int × Nat → Option Int × Option Int × Nat
  | [], acc => acc
  | line :: rest, acc =>
    if jsTrim line ≠ "" then
      match (extractTimestampFromLine currentYear line).bind (fun t => t.parsed) with
      | some d => timestampFold currentYear rest (updAcc acc d)
      | none => timestampFold currentYear rest acc
    else timestampFold currentYear rest acc

def analyzeFileTimestamps (currentYear : Nat) (content fileName fileId : String) :
    FileTimestampMetadata :=
  let lines := jsSplitNewline content
  let acc := timestampFold currentYear lines (none, none, 0)
  { fileId := fileId, fileName := fileName,
    earliest := acc.1, latest := acc.2.1, totalTimestamps := acc.2.2 }

/-! ## analyzeLogContent -/

/-- The chained keyword conditionals of `analyzeLogContent`. -/
def classifyLine (line : String) : Category :=
  let lowerLine := jsToLower line
  if jsIncludes lowerLine "critical" || jsIncludes lowerLine "fatal" ||
      jsIncludes lowerLine "error" then
    Category.error
  else if jsIncludes lowerLine "warning" || jsIncludes lowerLine "warn" ||
      jsIncludes lowerLine "notice" then
    Category.warning
  else if jsIncludes lowerLine "info" || jsIncludes lowerLine "debug" ||
      jsIncludes lowerLine "success" then
    Category.success
  else
    Category.info

/-- The `lines.forEach` loop of `analyzeLogContent`: entries for
non-blank lines plus the error/warning/success counters incremented in
the classification branches. -/
def analyzeLines (currentYear : Nat) :
    List String → Nat → List LogEntry × Nat × Nat × Nat
  | [], _ => ([], 0, 0, 0)
  | line :: rest, index =>
    let r := analyzeLines currentYear rest (index + 1)
    if jsTrim line ≠ "" then
      let ty := classifyLine line
      let timestampData := extractTimestampFromLine currentYear line
      ({ line := jsTrim line
         lineNumber := index + 1
         type := ty
         timestamp := timestampData.bind (fun t => t.parsed)
         originalTimestamp := timestampData.map (fun t => t.original) } :: r.1,
       r.2.1 + (if ty = Category.error then 1 else 0),
       r.2.2.1 + (if ty = Category.warning then 1 else 0),
       r.2.2.2 + (if ty = Category.success then 1 else 0))
    else r

/-- `analyzeLogContent`, with the JS environment made explicit:
`currentYear` feeds syslog parsing, `now` is `Date.now()` and `rand`
is `Math.random().toString(36)` (the file id is their concatenation). -/
def analyzeLogContent (currentYear now : Nat) (rand : String)
    (content fileName : String) : LogFile :=
  let lines := jsSplitNewline content
  let r := analyzeLines currentYear lines 0
  let fileId := toString now ++ rand
  { id := fileId
    name := fileName
    content := content
    entries := r.1
    errors := r.2.1
    warnings := r.2.2.1
    success := r.2.2.2
    timestampMetadata := analyzeFileTimestamps currentYear content fileName fileId }

/-! ## isTimestampInRange and the collection filter -/

def isTimestampInRange (timestamp : Int) (startDate endDate : Option Int) : Bool :=
  if startDate.isNone && endDate.isNone then true
  else if startDate.elim false (fun sv => decide (timestamp < sv)) then false
  else if endDate.elim false (fun ev => decide (timestamp > ev)) then false
  else true

/-- The entry predicate of the datetime stage: entries without a
timestamp are dropped, others go through `isTimestampInRange`. -/
def dtKeepEntry (s e : Option Int) (entry : LogEntry) : Bool :=
  match entry.timestamp with
  | none => false
  | some t => isTimestampInRange t s e

/-- The per-file arrow function of the datetime stage: `null` for
files whose filtered entries are empty, otherwise the file with only
the surviving entries. -/
def datetimeMapFile (s e : Option Int) (file : LogFile) : Option LogFile :=
  let filteredEntries := file.entries.filter (dtKeepEntry s e)
  if filteredEntries.length = 0 then none
  else some { file with entries := filteredEntries }

/-- `.map(...).filter(Boolean)` of the datetime stage. -/
def datetimeStage (s e : Option Int) (files : List LogFile) : List LogFile :=
  files.filterMap (datetimeMapFile s e)

def datetimeStageCond (s e : Option Int) (files : List LogFile) : List LogFile :=
  if s.isSome || e.isSome then datetimeStage s e files else files

/-- The file-level gate of the category stage (the `switch`). -/
def categoryPred (selectedFilter : FilterChoice) (file : LogFile) : Bool :=
  match selectedFilter with
  | FilterChoice.error => decide (file.errors > 0)
  | FilterChoice.warning => decide (file.warnings > 0)
  | FilterChoice.success => decide (file.success > 0)
  | FilterChoice.all => true

def categoryStage (selectedFilter : FilterChoice) (files : List LogFile) : List LogFile :=
  if selectedFilter ≠ FilterChoice.all then files.filter (categoryPred selectedFilter)
  else files

/-- The search-stage predicate: file name or some surviving entry line
contains the query, case-insensitively. -/
def searchPred (searchQuery : String) (file : LogFile) : Bool :=
  jsIncludes (jsToLower file.name) (jsToLower searchQuery) ||
  file.entries.any (fun entry => jsIncludes (jsToLower entry.line) (jsToLower searchQuery))

def searchStage (searchQuery : String) (files : List LogFile) : List LogFile :=
  if searchQuery ≠ "" then files.filter (searchPred searchQuery) else files

/-- The `filteredFiles` memo: datetime stage, then category stage,
then search stage. -/
def filteredFiles (files : List LogFile) (selectedFilter : FilterChoice)
    (searchQuery : String) (startDateTime endDateTime : Option Int) : List LogFile :=
  searchStage searchQuery
    (categoryStage selectedFilter
      (datetimeStageCond startDateTime endDateTime files))

/-! ## Spec-side formulation of the datetime stage (for refinement)

These two definitions transcribe the specification's words: keep
exactly the entries whose timestamp is present and lies within the
inclusive bounds, a missing bound imposing no constraint; a file whose
entries become empty is removed wholly. -/

def specKeepEntry (s e : Option Int) (en : LogEntry) : Bool :=
  match en.timestamp with
  | none => false
  | some t =>
    (match s with
     | none => true
     | some sv => decide (sv ≤ t)) &&
    (match e with
     | none => true
     | some ev => decide (t ≤ ev))

def specDatetimeStage (s e : Option Int) (files : List LogFile) : List LogFile :=
  files.filterMap (fun file =>
    let kept := file.entries.filter (specKeepEntry s e)
    if kept.isEmpty then none else some { file with entries := kept })

/-! ## Helper lemmas -/

theorem filterMap_eq_self_of_mem {α : Type} {g : α → Option α} :
    ∀ {l : List α}, (∀ a ∈ l, g a = some a) → l.filterMap g = l := by
  intro l
  induction l with
  | nil => intro _; rfl
  | cons a t ih =>
    intro h
    rw [List.filterMap_cons, h a (List.mem_cons_self a t)]
    exact congrArg (a :: ·) (ih fun b hb => h b (List.mem_cons_of_mem a hb))

theorem dtKeepEntry_eq_specKeepEntry (s e : Option Int) (en : LogEntry) :
    dtKeepEntry s e en = specKeepEntry s e en := by
  unfold dtKeepEntry specKeepEntry isTimestampInRange
  cases en.timestamp with
  | none => rfl
  | some t =>
    cases s with
    | none =>
      cases e with
      | none => simp
      | some ev =>
        by_cases h2 : t > ev
        · simp [Option.elim, h2, show ¬ t ≤ ev by omega]
        · simp [Option.elim, h2, show t ≤ ev by omega]
    | some sv =>
      cases e with
      | none =>
        by_cases h1 : t < sv
        · simp [Option.elim, h1, show ¬ sv ≤ t by omega]
        · simp [Option.elim, h1, show sv ≤ t by omega]
      | some ev =>
        by_cases h1 : t < sv
        · simp [Option.elim, h1, show ¬ sv ≤ t by omega]
        · by_cases h2 : t > ev
          · simp [Option.elim, h1, h2, show sv ≤ t by omega, show ¬ t ≤ ev by omega]
          · simp [Option.elim, h1, h2, show sv ≤ t by omega, show t ≤ ev by omega]

/-- Membership in the output of the datetime stage yields the source
file and the shape of the survivor. -/
theorem mem_datetimeStage {s e : Option Int} {files : List LogFile} {g : LogFile}
    (h : g ∈ datetimeStage s e files) :
    ∃ f ∈ files,
      g = { f with entries := f.entries.filter (dtKeepEntry s e) } ∧
      f.entries.filter (dtKeepEntry s e) ≠ [] := by
  obtain ⟨f, hf, hmap⟩ := List.mem_filterMap.mp h
  refine ⟨f, hf, ?_⟩
  unfold datetimeMapFile at hmap
  by_cases hlen : (f.entries.filter (dtKeepEntry s e)).length = 0
  · simp [hlen] at hmap
  · simp only [hlen, if_false] at hmap
    obtain rfl := (Option.some_inj.mp hmap).symm
    exact ⟨rfl, fun hnil => hlen (by rw [hnil]; rfl)⟩

/-- Entries of any datetime-stage survivor are nonempty and all
satisfy the keep predicate. -/
theorem datetimeStage_survivor {s e : Option Int} {files : List LogFile} {g : LogFile}
    (h : g ∈ datetimeStage s e files) :
    g.entries ≠ [] ∧ ∀ en ∈ g.entries, dtKeepEntry s e en = true := by
  obtain ⟨f, _, hg, hne⟩ := mem_datetimeStage h
  subst hg
  exact ⟨hne, fun en hen => (List.mem_filter.mp hen).2⟩

/-- The datetime stage fixes any list whose members already satisfy
its conditions. -/
theorem datetimeStage_fix {s e : Option Int} {l : List LogFile}
    (h : ∀ g ∈ l, g.entries ≠ [] ∧ ∀ en ∈ g.entries, dtKeepEntry s e en = true) :
    datetimeStage s e l = l := by
  apply filterMap_eq_self_of_mem
  intro g hg
  obtain ⟨hne, hkeep⟩ := h g hg
  unfold datetimeMapFile
  have hfix : g.entries.filter (dtKeepEntry s e) = g.entries :=
    List.filter_eq_self.mpr hkeep
  simp only [hfix]
  rw [if_neg (fun hlen => hne (List.length_eq_zero.mp hlen))]

/-! ## Claim C4: error keywords take strict precedence -/

/-- C4: for every line whose lowercased text contains both "error" and
"info" as substrings, the classifier assigns category `error` — the
error keyword group takes strict precedence, and exactly one category
is assigned (classification is a total function into `Category`). -/
theorem claim_C4 (line : String)
    (hErr : jsIncludes (jsToLower line) "error" = true)
    (_hInfo : jsIncludes (jsToLower line) "info" = true) :
    classifyLine line = Category.error := by
  unfold classifyLine
  simp [hErr]

/-- C4 witness: a concrete line containing both "error" and "info". -/
theorem claim_C4_witness :
    jsIncludes (jsToLower "INFO: error occurred") "error" = true ∧
    jsIncludes (jsToLower "INFO: error occurred") "info" = true ∧
    classifyLine "INFO: error occurred" = Category.error :=
  ⟨by decide, by decide,
   claim_C4 "INFO: error occurred" (by decide) (by decide)⟩

/-! ## Claim C5: datetime stage semantics -/

/-- C5: whenever at least one datetime bound is set, the datetime
stage keeps exactly the entries whose timestamp is present and lies
within the inclusive `[startInstant, endInstant]` bounds (a missing
bound imposing no constraint), drops entries lacking a timestamp, and
removes wholly any file whose entries become empty — i.e. the code's
stage equals the specification's formulation. -/
theorem claim_C5 (s e : Option Int) (files : List LogFile)
    (_hbound : s.isSome = true ∨ e.isSome = true) :
    datetimeStage s e files = specDatetimeStage s e files := by
  unfold datetimeStage specDatetimeStage
  have hpred : dtKeepEntry s e = specKeepEntry s e :=
    funext fun en => dtKeepEntry_eq_specKeepEntry s e en
  have hfun : datetimeMapFile s e = (fun file =>
      let kept := file.entries.filter (specKeepEntry s e)
      if kept.isEmpty then none else some { file with entries := kept }) := by
    funext file
    unfold datetimeMapFile
    rw [hpred]
    cases hk : file.entries.filter (specKeepEntry s e) with
    | nil => rfl
    | cons a t => rfl
  rw [hfun]

/-- C5 witness: both bounds set over a one-file collection; the entry
at exactly the start bound survives, the out-of-range entry and the
timestampless entry are dropped. -/
theorem claim_C5_witness :
    ((some (5 : Int)).isSome = true ∨ (some (10 : Int)).isSome = true) ∧
    datetimeStage (some 5) (some 10)
        [{ id := "f1", name := "a.log", content := "c",
           entries :=
             [{ line := "x", lineNumber := 1, type := Category.info,
                timestamp := some 5, originalTimestamp := none },
              { line := "y", lineNumber := 2, type := Category.info,
                timestamp := some 11, originalTimestamp := none },
              { line := "z", lineNumber := 3, type := Category.info,
                timestamp := none, originalTimestamp := none }],
           errors := 0, warnings := 0, success := 0,
           timestampMetadata :=
             { fileId := "f1", fileName := "a.log", earliest := some 5,
               latest := some 11, totalTimestamps := 2 } }] =
      specDatetimeStage (some 5) (some 10)
        [{ id := "f1", name := "a.log", content := "c",
           entries :=
             [{ line := "x", lineNumber := 1, type := Category.info,
                timestamp := some 5, originalTimestamp := none },
              { line := "y", lineNumber := 2, type := Category.info,
                timestamp := some 11, originalTimestamp := none },
              { line := "z", lineNumber := 3, type := Category.info,
                timestamp := none, originalTimestamp := none }],
           errors := 0, warnings := 0, success := 0,
           timestampMetadata :=
             { fileId := "f1", fileName := "a.log", earliest := some 5,
               latest := some 11, totalTimestamps := 2 } }] :=
  ⟨Or.inl rfl, claim_C5 (some 5) (some 10) _ (Or.inl rfl)⟩

/-! ## Stage membership and fixpoint lemmas -/

theorem mem_of_mem_searchStage {q : String} {l : List LogFile} {g : LogFile}
    (h : g ∈ searchStage q l) : g ∈ l ∧ (q ≠ "" → searchPred q g = true) := by
  unfold searchStage at h
  by_cases hq : q = ""
  · rw [if_neg (fun hne => hne hq)] at h
    exact ⟨h, fun hne => absurd hq hne⟩
  · rw [if_pos hq] at h
    exact ⟨(List.mem_filter.mp h).1, fun _ => (List.mem_filter.mp h).2⟩

theorem mem_of_mem_categoryStage {filt : FilterChoice} {l : List LogFile} {g : LogFile}
    (h : g ∈ categoryStage filt l) :
    g ∈ l ∧ (filt ≠ FilterChoice.all → categoryPred filt g = true) := by
  unfold categoryStage at h
  by_cases hf : filt = FilterChoice.all
  · rw [if_neg (fun hne => hne hf)] at h
    exact ⟨h, fun hne => absurd hf hne⟩
  · rw [if_pos hf] at h
    exact ⟨(List.mem_filter.mp h).1, fun _ => (List.mem_filter.mp h).2⟩

theorem searchStage_fix {q : String} {l : List LogFile}
    (h : ∀ g ∈ l, q ≠ "" → searchPred q g = true) : searchStage q l = l := by
  unfold searchStage
  by_cases hq : q = ""
  · rw [if_neg (fun hne => hne hq)]
  · rw [if_pos hq]
    exact List.filter_eq_self.mpr (fun g hg => h g hg hq)

theorem categoryStage_fix {filt : FilterChoice} {l : List LogFile}
    (h : ∀ g ∈ l, filt ≠ FilterChoice.all → categoryPred filt g = true) :
    categoryStage filt l = l := by
  unfold categoryStage
  by_cases hf : filt = FilterChoice.all
  · rw [if_neg (fun hne => hne hf)]
  · rw [if_pos hf]
    exact List.filter_eq_self.mpr (fun g hg => h g hg hf)

theorem mem_of_mem_datetimeStageCond {s e : Option Int} {files : List LogFile}
    {g : LogFile} (h : g ∈ datetimeStageCond s e files) :
    ((s.isSome || e.isSome) = true → g ∈ datetimeStage s e files) ∧
    ((s.isSome || e.isSome) = false → g ∈ files) := by
  unfold datetimeStageCond at h
  by_cases hb : (s.isSome || e.isSome) = true
  · rw [if_pos hb] at h
    exact ⟨fun _ => h, fun hfalse => absurd hb (by simp [hfalse])⟩
  · rw [if_neg hb] at h
    exact ⟨fun htrue => absurd htrue hb, fun _ => h⟩

theorem datetimeStageCond_fix {s e : Option Int} {l : List LogFile}
    (h : ∀ g ∈ l, g.entries ≠ [] ∧ ∀ en ∈ g.entries, dtKeepEntry s e en = true) :
    datetimeStageCond s e l = l := by
  unfold datetimeStageCond
  by_cases hb : (s.isSome || e.isSome) = true
  · rw [if_pos hb]
    exact datetimeStage_fix h
  · rw [if_neg hb]

/-! ## Claim C10: the filter only removes, never modifies -/

/-- C10: every file in the filter's output corresponds to an input
file with `id`, `name`, `content`, counters and `timestampMetadata`
unchanged, and its entries a sublist of the input file's entries. -/
theorem claim_C10 (files : List LogFile) (filt : FilterChoice) (q : String)
    (s e : Option Int) (g : LogFile)
    (hg : g ∈ filteredFiles files filt q s e) :
    ∃ f ∈ files, g.id = f.id ∧ g.name = f.name ∧ g.content = f.content ∧
      g.errors = f.errors ∧ g.warnings = f.warnings ∧ g.success = f.success ∧
      g.timestampMetadata = f.timestampMetadata ∧ g.entries.Sublist f.entries := by
  unfold filteredFiles at hg
  have h1 := (mem_of_mem_searchStage hg).1
  have h2 := (mem_of_mem_categoryStage h1).1
  have h3 := mem_of_mem_datetimeStageCond h2
  by_cases hb : (Option.isSome s || Option.isSome e) = true
  · obtain ⟨f, hf, hgf, _⟩ := mem_datetimeStage (h3.1 hb)
    subst hgf
    exact ⟨f, hf, rfl, rfl, rfl, rfl, rfl, rfl, rfl, List.filter_sublist f.entries⟩
  · refine ⟨g, h3.2 (by revert hb; cases Option.isSome s || Option.isSome e <;> simp), ?_⟩
    exact ⟨rfl, rfl, rfl, rfl, rfl, rfl, rfl, List.Sublist.refl g.entries⟩

/-- Concrete one-entry file for the C10 witness. -/
def w10file : LogFile :=
  { id := "w10", name := "w.log", content := "hello",
    entries := [{ line := "hello", lineNumber := 1, type := Category.info,
                  timestamp := none, originalTimestamp := none }],
    errors := 0, warnings := 0, success := 0,
    timestampMetadata := { fileId := "w10", fileName := "w.log",
                           earliest := none, latest := none,
                           totalTimestamps := 0 } }

/-- C10 witness: an unfiltered query returns the file itself, which is
its own frame-preserving correspondent. -/
theorem claim_C10_witness :
    ∃ f ∈ [w10file], w10file.id = f.id ∧ w10file.name = f.name ∧
      w10file.content = f.content ∧ w10file.errors = f.errors ∧
      w10file.warnings = f.warnings ∧ w10file.success = f.success ∧
      w10file.timestampMetadata = f.timestampMetadata ∧
      w10file.entries.Sublist f.entries :=
  claim_C10 [w10file] FilterChoice.all "" none none w10file (by decide)

/-! ## Claim C6: the filter is idempotent -/

/-- C6: applying the collection filter to its own output with the same
query (category filter, search query, datetime bounds) yields that
output unchanged. -/
theorem claim_C6 (files : List LogFile) (filt : FilterChoice) (q : String)
    (s e : Option Int) :
    filteredFiles (filteredFiles files filt q s e) filt q s e
      = filteredFiles files filt q s e := by
  have hconds : ∀ g ∈ filteredFiles files filt q s e,
      ((s.isSome || e.isSome) = true →
        g.entries ≠ [] ∧ ∀ en ∈ g.entries, dtKeepEntry s e en = true) ∧
      (filt ≠ FilterChoice.all → categoryPred filt g = true) ∧
      (q ≠ "" → searchPred q g = true) := by
    intro g hg
    unfold filteredFiles at hg
    obtain ⟨hg1, hq⟩ := mem_of_mem_searchStage hg
    obtain ⟨hg2, hcat⟩ := mem_of_mem_categoryStage hg1
    have h3 := mem_of_mem_datetimeStageCond hg2
    exact ⟨fun hb => datetimeStage_survivor (h3.1 hb), hcat, hq⟩
  set y := filteredFiles files filt q s e with hy
  have step1 : datetimeStageCond s e y = y := by
    unfold datetimeStageCond
    by_cases hb : (Option.isSome s || Option.isSome e) = true
    · rw [if_pos hb]
      exact datetimeStage_fix (fun g hg => (hconds g hg).1 hb)
    · rw [if_neg hb]
  have step2 : categoryStage filt y = y :=
    categoryStage_fix (fun g hg hf => (hconds g hg).2.1 hf)
  have step3 : searchStage q y = y :=
    searchStage_fix (fun g hg hq => (hconds g hg).2.2 hq)
  show searchStage q (categoryStage filt (datetimeStageCond s e y)) = y
  rw [step1, step2, step3]

/-! ## Unfolding equations for the analysis loop -/

theorem analyzeLines_nil (cy idx : Nat) : analyzeLines cy [] idx = ([], 0, 0, 0) := rfl

theorem analyzeLines_cons (cy : Nat) (l : String) (ls : List String) (idx : Nat) :
    analyzeLines cy (l :: ls) idx =
      if jsTrim l ≠ "" then
        ({ line := jsTrim l
           lineNumber := idx + 1
           type := classifyLine l
           timestamp := (extractTimestampFromLine cy l).bind (fun t => t.parsed)
           originalTimestamp := (extractTimestampFromLine cy l).map (fun t => t.original) }
          :: (analyzeLines cy ls (idx + 1)).1,
         (analyzeLines cy ls (idx + 1)).2.1 +
           (if classifyLine l = Category.error then 1 else 0),
         (analyzeLines cy ls (idx + 1)).2.2.1 +
           (if classifyLine l = Category.warning then 1 else 0),
         (analyzeLines cy ls (idx + 1)).2.2.2 +
           (if classifyLine l = Category.success then 1 else 0))
      else analyzeLines cy ls (idx + 1) := rfl

/-! ## Claim C7: blank lines and 1-based line numbers -/

/-- Every produced entry points back to a non-blank line at its
1-based raw position. -/
theorem analyzeLines_entry_spec (cy : Nat) :
    ∀ (lines : List String) (idx : Nat) (en : LogEntry),
      en ∈ (analyzeLines cy lines idx).1 →
      ∃ j, j < lines.length ∧ en.lineNumber = j + idx + 1 ∧
        jsTrim (lines.getD j "") ≠ "" ∧ en.line = jsTrim (lines.getD j "") := by
  intro lines
  induction lines with
  | nil =>
    intro idx en h
    simp [analyzeLines_nil] at h
  | cons l ls ih =>
    intro idx en h
    rw [analyzeLines_cons] at h
    by_cases htrim : jsTrim l ≠ ""
    · rw [if_pos htrim] at h
      rcases List.mem_cons.mp h with hhead | htail
      · subst hhead
        exact ⟨0, by simp, by simp, by simpa using htrim, by simp⟩
      · obtain ⟨j, hj, hnum, hblank, hline⟩ := ih (idx + 1) en htail
        exact ⟨j + 1, by simpa using Nat.succ_lt_succ hj, by omega,
          by simpa using hblank, by simpa using hline⟩
    · rw [if_neg htrim] at h
      obtain ⟨j, hj, hnum, hblank, hline⟩ := ih (idx + 1) en h
      exact ⟨j + 1, by simpa using Nat.succ_lt_succ hj, by omega,
        by simpa using hblank, by simpa using hline⟩

/-- Every non-blank line yields an entry at its 1-based raw
position. -/
theorem analyzeLines_entry_exists (cy : Nat) :
    ∀ (lines : List String) (idx j : Nat), j < lines.length →
      jsTrim (lines.getD j "") ≠ "" →
      ∃ en ∈ (analyzeLines cy lines idx).1, en.lineNumber = j + idx + 1 := by
  intro lines
  induction lines with
  | nil =>
    intro idx j hj
    simp at hj
  | cons l ls ih =>
    intro idx j hj hblank
    rw [analyzeLines_cons]
    cases j with
    | zero =>
      have htrim : jsTrim l ≠ "" := by simpa using hblank
      rw [if_pos htrim]
      exact ⟨_, List.mem_cons_self _ _, by simp⟩
    | succ j' =>
      have hj' : j' < ls.length := by simpa using Nat.lt_of_succ_lt_succ hj
      have hblank' : jsTrim (ls.getD j' "") ≠ "" := by simpa using hblank
      obtain ⟨en, hen, hnum⟩ := ih (idx + 1) j' hj' hblank'
      by_cases htrim : jsTrim l ≠ ""
      · rw [if_pos htrim]
        exact ⟨en, List.mem_cons_of_mem _ hen, by rw [hnum]; omega⟩
      · rw [if_neg htrim]
        exact ⟨en, hen, by rw [hnum]; omega⟩

/-- C7: analysis produces no entry for a line that is blank after
trimming, every entry carries as `lineNumber` the 1-based position of
its (non-blank, trimmed) source line in the raw newline split, and
every non-blank line yields such an entry. -/
theorem claim_C7 (cy now : Nat) (rand content fileName : String) :
    (∀ i, i < (jsSplitNewline content).length →
        jsTrim ((jsSplitNewline content).getD i "") = "" →
        ∀ en ∈ (analyzeLogContent cy now rand content fileName).entries,
          en.lineNumber ≠ i + 1) ∧
    (∀ en ∈ (analyzeLogContent cy now rand content fileName).entries,
        ∃ i, i < (jsSplitNewline content).length ∧ en.lineNumber = i + 1 ∧
          jsTrim ((jsSplitNewline content).getD i "") ≠ "" ∧
          en.line = jsTrim ((jsSplitNewline content).getD i "")) ∧
    (∀ i, i < (jsSplitNewline content).length →
        jsTrim ((jsSplitNewline content).getD i "") ≠ "" →
        ∃ en ∈ (analyzeLogContent cy now rand content fileName).entries,
          en.lineNumber = i + 1) := by
  have hent : (analyzeLogContent cy now rand content fileName).entries
      = (analyzeLines cy (jsSplitNewline content) 0).1 := rfl
  refine ⟨?_, ?_, ?_⟩
  · intro i hi hblank en hen
    rw [hent] at hen
    obtain ⟨j, _, hnum, hjblank, _⟩ := analyzeLines_entry_spec cy _ 0 en hen
    intro hcontra
    have : j = i := by omega
    exact hjblank (this ▸ hblank)
  · intro en hen
    rw [hent] at hen
    obtain ⟨j, hj, hnum, hjblank, hline⟩ := analyzeLines_entry_spec cy _ 0 en hen
    exact ⟨j, hj, by omega, hjblank, hline⟩
  · intro i hi hblank
    obtain ⟨en, hen, hnum⟩ := analyzeLines_entry_exists cy _ 0 i hi hblank
    rw [← hent] at hen
    exact ⟨en, hen, by omega⟩

/-- C7 witness: in `"one\n\ntwo"` the blank second line still counts,
so the third line's entry carries lineNumber 3. -/
theorem claim_C7_witness :
    ∃ en ∈ (analyzeLogContent 2024 1 "0.a" "one\n\ntwo" "w.log").entries,
      en.lineNumber = 2 + 1 :=
  (claim_C7 2024 1 "0.a" "one\n\ntwo" "w.log").2.2 2 (by decide) (by decide)

/-! ## Claim C8: counters count entries of their own category -/

theorem analyzeLines_counts (cy : Nat) :
    ∀ (lines : List String) (idx : Nat),
      (analyzeLines cy lines idx).2.1 =
        (analyzeLines cy lines idx).1.countP
          (fun en => decide (en.type = Category.error)) ∧
      (analyzeLines cy lines idx).2.2.1 =
        (analyzeLines cy lines idx).1.countP
          (fun en => decide (en.type = Category.warning)) ∧
      (analyzeLines cy lines idx).2.2.2 =
        (analyzeLines cy lines idx).1.countP
          (fun en => decide (en.type = Category.success)) := by
  intro lines
  induction lines with
  | nil => intro idx; simp [analyzeLines_nil]
  | cons l ls ih =>
    intro idx
    obtain ⟨ihe, ihw, ihs⟩ := ih (idx + 1)
    rw [analyzeLines_cons]
    by_cases htrim : jsTrim l ≠ ""
    · rw [if_pos htrim]
      refine ⟨?_, ?_, ?_⟩ <;>
        simp [List.countP_cons, ihe, ihw, ihs]
    · rw [if_neg htrim]
      exact ⟨ihe, ihw, ihs⟩

/-- C8: in every `LogFile` produced by `analyzeLogContent`, `errors`,
`warnings` and `success` equal the number of entries classified
`error`, `warning` and `success` respectively; `info` entries are
counted by none of them. -/
theorem claim_C8 (cy now : Nat) (rand content fileName : String) :
    (analyzeLogContent cy now rand content fileName).errors =
      (analyzeLogContent cy now rand content fileName).entries.countP
        (fun en => decide (en.type = Category.error)) ∧
    (analyzeLogContent cy now rand content fileName).warnings =
      (analyzeLogContent cy now rand content fileName).entries.countP
        (fun en => decide (en.type = Category.warning)) ∧
    (analyzeLogContent cy now rand content fileName).success =
      (analyzeLogContent cy now rand content fileName).entries.countP
        (fun en => decide (en.type = Category.success)) :=
  analyzeLines_counts cy (jsSplitNewline content) 0

/-! ## Claim C9: the two analysis passes agree on timestamps -/

/-- The parsed timestamps of the non-blank lines, in order. -/
def tsOfLines (cy : Nat) (lines : List String) : List Int :=
  lines.filterMap (fun l =>
    if jsTrim l ≠ "" then (extractTimestampFromLine cy l).bind (fun t => t.parsed)
    else none)

theorem timestampFold_cons (cy : Nat) (l : String) (ls : List String)
    (acc : Option Int × Option Int × Nat) :
    timestampFold cy (l :: ls) acc =
      if jsTrim l ≠ "" then
        (match (extractTimestampFromLine cy l).bind (fun t => t.parsed) with
         | some d => timestampFold cy ls (updAcc acc d)
         | none => timestampFold cy ls acc)
      else timestampFold cy ls acc := rfl

theorem entries_filterMap_timestamp (cy : Nat) :
    ∀ (lines : List String) (idx : Nat),
      (analyzeLines cy lines idx).1.filterMap (fun en => en.timestamp)
        = tsOfLines cy lines := by
  intro lines
  induction lines with
  | nil => intro idx; rfl
  | cons l ls ih =>
    intro idx
    rw [analyzeLines_cons]
    unfold tsOfLines
    rw [List.filterMap_cons]
    by_cases htrim : jsTrim l ≠ ""
    · rw [if_pos htrim, if_pos htrim, List.filterMap_cons]
      cases hx : (extractTimestampFromLine cy l).bind (fun t => t.parsed) with
      | none => simpa [hx, tsOfLines] using ih (idx + 1)
      | some d => simpa [hx, tsOfLines] using ih (idx + 1)
    · rw [if_neg htrim, if_neg htrim]
      exact ih (idx + 1)

theorem timestampFold_eq_foldl (cy : Nat) :
    ∀ (lines : List String) (acc : Option Int × Option Int × Nat),
      timestampFold cy lines acc = (tsOfLines cy lines).foldl updAcc acc := by
  intro lines
  induction lines with
  | nil => intro acc; rfl
  | cons l ls ih =>
    intro acc
    rw [timestampFold_cons]
    unfold tsOfLines
    rw [List.filterMap_cons]
    by_cases htrim : jsTrim l ≠ ""
    · rw [if_pos htrim, if_pos htrim]
      cases hx : (extractTimestampFromLine cy l).bind (fun t => t.parsed) with
      | none => simpa [hx, tsOfLines] using ih acc
      | some d => simpa [hx, tsOfLines] using ih (updAcc acc d)
    · rw [if_neg htrim, if_neg htrim]
      exact ih acc

theorem updAcc_some_some (a b : Int) (n : Nat) (d : Int) :
    updAcc (some a, some b, n) d = (some (min a d), some (max b d), n + 1) := by
  have hmin : (if d < a then some d else some a) = some (min a d) := by
    by_cases h : d < a
    · rw [if_pos h]; congr 1; omega
    · rw [if_neg h]; congr 1; omega
  have hmax : (if d > b then some d else some b) = some (max b d) := by
    by_cases h : d > b
    · rw [if_pos h]; congr 1; omega
    · rw [if_neg h]; congr 1; omega
  show ((if d < a then some d else some a), (if d > b then some d else some b), n + 1)
      = (some (min a d), some (max b d), n + 1)
  rw [hmin, hmax]

theorem foldl_updAcc_some :
    ∀ (l : List Int) (a b : Int) (n : Nat),
      l.foldl updAcc (some a, some b, n)
        = (some (l.foldl min a), some (l.foldl max b), n + l.length) := by
  intro l
  induction l with
  | nil => intro a b n; rfl
  | cons d ds ih =>
    intro a b n
    calc (d :: ds).foldl updAcc (some a, some b, n)
        = ds.foldl updAcc (updAcc (some a, some b, n) d) := by rw [List.foldl_cons]
      _ = ds.foldl updAcc (some (min a d), some (max b d), n + 1) := by
            rw [updAcc_some_some]
      _ = (some (ds.foldl min (min a d)), some (ds.foldl max (max b d)),
            (n + 1) + ds.length) := ih (min a d) (max b d) (n + 1)
      _ = (some ((d :: ds).foldl min a), some ((d :: ds).foldl max b),
            n + (d :: ds).length) := by
            simp only [List.foldl_cons, List.length_cons, Prod.mk.injEq, true_and]
            omega

theorem foldl_updAcc_none (l : List Int) :
    l.foldl updAcc (none, none, 0) = (l.min?, l.max?, l.length) := by
  cases l with
  | nil => rfl
  | cons d ds =>
    calc (d :: ds).foldl updAcc (none, none, 0)
        = ds.foldl updAcc (some d, some d, 1) := by rw [List.foldl_cons]; rfl
      _ = (some (ds.foldl min d), some (ds.foldl max d), 1 + ds.length) :=
            foldl_updAcc_some ds d d 1
      _ = ((d :: ds).min?, (d :: ds).max?, (d :: ds).length) := by
            simp only [List.min?, List.max?, List.length_cons, Prod.mk.injEq, true_and]
            omega

theorem countP_isSome_eq_length_filterMap (l : List LogEntry) :
    l.countP (fun en => en.timestamp.isSome)
      = (l.filterMap (fun en => en.timestamp)).length := by
  induction l with
  | nil => rfl
  | cons en t ih =>
    rw [List.countP_cons, List.filterMap_cons]
    cases hx : en.timestamp with
    | none => simpa [hx] using ih
    | some d => simpa [hx] using ih

/-- C9: for every raw content, the `timestampMetadata` computed by the
separate `analyzeFileTimestamps` pass agrees with the entries computed
by `analyzeLogContent`: `totalTimestamps` counts the entries with a
timestamp, and `earliest`/`latest` are the minimum/maximum of those
entries' timestamps, absent when no entry has one. -/
theorem claim_C9 (cy now : Nat) (rand content fileName : String) :
    (analyzeLogContent cy now rand content fileName).timestampMetadata.totalTimestamps
      = (analyzeLogContent cy now rand content fileName).entries.countP
          (fun en => en.timestamp.isSome) ∧
    (analyzeLogContent cy now rand content fileName).timestampMetadata.earliest
      = ((analyzeLogContent cy now rand content fileName).entries.filterMap
          (fun en => en.timestamp)).min? ∧
    (analyzeLogContent cy now rand content fileName).timestampMetadata.latest
      = ((analyzeLogContent cy now rand content fileName).entries.filterMap
          (fun en => en.timestamp)).max? := by
  have hts : (analyzeLogContent cy now rand content fileName).entries.filterMap
      (fun en => en.timestamp) = tsOfLines cy (jsSplitNewline content) :=
    entries_filterMap_timestamp cy (jsSplitNewline content) 0
  have hfold : timestampFold cy (jsSplitNewline content) (none, none, 0)
      = ((tsOfLines cy (jsSplitNewline content)).min?,
         (tsOfLines cy (jsSplitNewline content)).max?,
         (tsOfLines cy (jsSplitNewline content)).length) := by
    rw [timestampFold_eq_foldl, foldl_updAcc_none]
  refine ⟨?_, ?_, ?_⟩
  · show (timestampFold cy (jsSplitNewline content) (none, none, 0)).2.2 = _
    rw [hfold, countP_isSome_eq_length_filterMap, hts]
  · show (timestampFold cy (jsSplitNewline content) (none, none, 0)).1 = _
    rw [hfold, hts]
  · show (timestampFold cy (jsSplitNewline content) (none, none, 0)).2.1 = _
    rw [hfold, hts]

/-! ## Claim C1: stage-order interaction of datetime and category -/

/-- Raw content for the C1 scenario: an info-category line timestamped
2024-06-15 and an error-category line timestamped 2024-06-20. -/
def c1content : String :=
  "2024-06-15 10:00:00 all good\n2024-06-20 10:00:00 error: disk failure"

def c1file : LogFile := analyzeLogContent 2024 1000 "0.k3j" c1content "app.log"

/-- Datetime bounds enclosing only 2024-06-15. -/
def c1start : Int := dateKeyMs 2024 6 15 0 0 0 0 0

def c1end : Int := dateKeyMs 2024 6 16 0 0 0 0 0

/-- C1 counterexample: the analyzed file has exactly two entries — an
info entry whose timestamp lies inside the active range and an error
entry whose timestamp lies outside it — yet filtering with both bounds
set, categoryFilter = error and an empty search query KEEPS the file
in the result (the claim asserts the file is excluded): the datetime
stage keeps the file for its surviving in-range info entry, and the
category gate then passes because it uses the file's original
full-file error count. -/
theorem claim_C1_counterexample :
    c1file.entries.map (fun en => en.type) = [Category.info, Category.error] ∧
    c1file.entries.map (fun en =>
        match en.timestamp with
        | some t => isTimestampInRange t (some c1start) (some c1end)
        | none => false) = [true, false] ∧
    (filteredFiles [c1file] FilterChoice.error "" (some c1start) (some c1end)).map
        (fun g => g.id) = [c1file.id] :=
  ⟨by decide, by decide, by decide⟩

/-- C1 amended: a file with exactly two entries — one info entry with
an in-range timestamp and one error entry with an out-of-range
timestamp — and a positive stored error count is INCLUDED by the
filter (with only the info entry remaining): stage 1 keeps the file
for the in-range entry and stage 2's gate uses the original error
count. -/
theorem claim_C1_amended (files : List LogFile) (f : LogFile) (e1 e2 : LogEntry)
    (sB eB t1 t2 : Int)
    (hf : f ∈ files) (hent : f.entries = [e1, e2])
    (_h1ty : e1.type = Category.info) (h1ts : e1.timestamp = some t1)
    (h1lo : sB ≤ t1) (h1hi : t1 ≤ eB)
    (_h2ty : e2.type = Category.error) (h2ts : e2.timestamp = some t2)
    (h2out : t2 < sB ∨ eB < t2)
    (herr : 0 < f.errors) :
    ∃ g ∈ filteredFiles files FilterChoice.error "" (some sB) (some eB),
      g.id = f.id ∧ g.entries = [e1] ∧ g.errors = f.errors := by
  have hkeep1 : dtKeepEntry (some sB) (some eB) e1 = true := by
    simp [dtKeepEntry, h1ts, isTimestampInRange, Option.elim,
      show ¬ t1 < sB by omega, show ¬ t1 > eB by omega]
  have hkeep2 : dtKeepEntry (some sB) (some eB) e2 = false := by
    rcases h2out with h | h
    · simp [dtKeepEntry, h2ts, isTimestampInRange, Option.elim, h]
    · by_cases hs : t2 < sB
      · simp [dtKeepEntry, h2ts, isTimestampInRange, Option.elim, hs]
      · simp [dtKeepEntry, h2ts, isTimestampInRange, Option.elim, hs,
          show t2 > eB from h]
  have hfilter : f.entries.filter (dtKeepEntry (some sB) (some eB)) = [e1] := by
    rw [hent]
    simp [List.filter, hkeep1, hkeep2]
  have hmap : datetimeMapFile (some sB) (some eB) f = some { f with entries := [e1] } := by
    simp [datetimeMapFile, hfilter]
  have hg1 : { f with entries := [e1] } ∈ datetimeStage (some sB) (some eB) files :=
    List.mem_filterMap.mpr ⟨f, hf, hmap⟩
  have hg2 : { f with entries := [e1] }
      ∈ categoryStage FilterChoice.error (datetimeStage (some sB) (some eB) files) := by
    unfold categoryStage
    rw [if_pos (by decide)]
    refine List.mem_filter.mpr ⟨hg1, ?_⟩
    show decide (f.errors > 0) = true
    exact decide_eq_true herr
  refine ⟨{ f with entries := [e1] }, ?_, rfl, rfl, rfl⟩
  show _ ∈ searchStage "" (categoryStage FilterChoice.error
    (datetimeStageCond (some sB) (some eB) files))
  have hcond : datetimeStageCond (some sB) (some eB) files
      = datetimeStage (some sB) (some eB) files := by
    simp [datetimeStageCond]
  unfold searchStage
  rw [if_neg (by simp), hcond]
  exact hg2

/-- The two entries the analyzer produces for `c1content`. -/
def c1e1 : LogEntry :=
  { line := "2024-06-15 10:00:00 all good", lineNumber := 1, type := Category.info,
    timestamp := some (dateKeyMs 2024 6 15 10 0 0 0 0),
    originalTimestamp := some "2024-06-15 10:00:00" }

def c1e2 : LogEntry :=
  { line := "2024-06-20 10:00:00 error: disk failure", lineNumber := 2,
    type := Category.error,
    timestamp := some (dateKeyMs 2024 6 20 10 0 0 0 0),
    originalTimestamp := some "2024-06-20 10:00:00" }

/-- C1 witness: the amended claim applied to the concrete analyzed
file. -/
theorem claim_C1_witness :
    c1file ∈ [c1file] ∧
    c1file.entries = [c1e1, c1e2] ∧
    c1e1.type = Category.info ∧
    c1e1.timestamp = some (dateKeyMs 2024 6 15 10 0 0 0 0) ∧
    c1start ≤ dateKeyMs 2024 6 15 10 0 0 0 0 ∧
    dateKeyMs 2024 6 15 10 0 0 0 0 ≤ c1end ∧
    c1e2.type = Category.error ∧
    c1e2.timestamp = some (dateKeyMs 2024 6 20 10 0 0 0 0) ∧
    (dateKeyMs 2024 6 20 10 0 0 0 0 < c1start ∨ c1end < dateKeyMs 2024 6 20 10 0 0 0 0) ∧
    0 < c1file.errors ∧
    (∃ g ∈ filteredFiles [c1file] FilterChoice.error "" (some c1start) (some c1end),
      g.id = c1file.id ∧ g.entries = [c1e1] ∧ g.errors = c1file.errors) :=
  ⟨by decide, by decide, rfl, rfl, by decide, by decide, rfl, rfl,
   Or.inr (by decide), by decide,
   claim_C1_amended [c1file] c1file c1e1 c1e2 c1start c1end
     (dateKeyMs 2024 6 15 10 0 0 0 0) (dateKeyMs 2024 6 20 10 0 0 0 0)
     (by decide) (by decide) rfl rfl (by decide) (by decide) rfl rfl
     (Or.inr (by decide)) (by decide)⟩

/-! ## Claim C2: Apache/NCSA bracketed timestamps never parse -/

/-- A line whose only timestamp-shaped substring is the Apache
bracketed form. -/
def c2line : String := "access [15/Jun/2024:09:34:10 +0000] GET /index.html"

/-- C2: the Apache pattern is the first (and only) pattern to match
this line, the bracket-stripping `replace(/[[]]/g, '')` leaves the
brackets in place (the regex matches only the literal two-character
text `[]`), the bracketed string fails date parsing, and extraction
therefore returns absent — contradicting the claim that a parsed
result is returned. -/
theorem claim_C2_eval :
    scanFirst isoPatTail c2line.data = none ∧
    scanFirst stdPatTail c2line.data = none ∧
    scanFirst stdMsPatTail c2line.data = none ∧
    scanFirst usPatTail c2line.data = none ∧
    scanFirst syslogPatTail c2line.data = none ∧
    scanFirst apachePatTail c2line.data
      = some ("[15/Jun/2024:09:34:10 +0000]").data ∧
    jsReplaceEmptyBrackets "[15/Jun/2024:09:34:10 +0000]"
      = "[15/Jun/2024:09:34:10 +0000]" ∧
    jsDateParse "[15/Jun/2024:09:34:10 +0000]" = none ∧
    extractTimestampFromLine 2024 c2line = none :=
  ⟨by decide, by decide, by decide, by decide, by decide, by decide,
   by decide, by decide, by decide⟩

/-! ## Claim C3: file ids are not guaranteed unique -/

/-- C3 counterexample: two analyses that observe the same `Date.now()`
and `Math.random()` outputs produce two distinct `LogFile` records
with EQUAL ids — uniqueness is not guaranteed by the generator
`Date.now().toString() + Math.random().toString(36)`. -/
theorem claim_C3_counterexample :
    (analyzeLogContent 2024 1000 "0.x" "a" "a.log")
        ≠ (analyzeLogContent 2024 1000 "0.x" "b" "b.log") ∧
    (analyzeLogContent 2024 1000 "0.x" "a" "a.log").id
        = (analyzeLogContent 2024 1000 "0.x" "b" "b.log").id :=
  ⟨by decide, by decide⟩

/-- C3 amended: two LogFile records receive distinct ids exactly when
their observed environments differ in the concatenation of the
`Date.now()` string and the `Math.random()` suffix; the generator
guarantees nothing more. -/
theorem claim_C3_amended (cy1 cy2 now1 now2 : Nat)
    (r1 r2 contentA nameA contentB nameB : String)
    (h : toString now1 ++ r1 ≠ toString now2 ++ r2) :
    (analyzeLogContent cy1 now1 r1 contentA nameA).id
      ≠ (analyzeLogContent cy2 now2 r2 contentB nameB).id := h

/-- C3 witness: different clock readings give different ids. -/
theorem claim_C3_witness :
    ((toString 1 ++ "0.a" : String) ≠ toString 2 ++ "0.a") ∧
    (analyzeLogContent 2024 1 "0.a" "x" "x.log").id
      ≠ (analyzeLogContent 2024 2 "0.a" "y" "y.log").id :=
  ⟨by decide,
   claim_C3_amended 2024 2024 1 2 "0.a" "0.a" "x" "x.log" "y" "y.log" (by decide)⟩

end LogAnalyzer
